import Mathlib

/-
Verification of the quicksurvey fiber-assignment core.

Shallow embedding of src/py/quicksurvey:
  * fiberassign/assign.py : find_available_targets, select_target
  * util/__init__.py      : plate_dist, radec2xy, FocalPlaneFibers neighbors,
                            Positioner constants R1, R2
  * recordresults/update.py : update_global_targets

Conventions of the embedding:
  * focal-plane coordinates are exact rationals; the source compares
    np.sqrt(d2) < r with r > 0, which is equivalent to d2 < r^2 since
    Real.sqrt is strictly monotone on nonnegatives, so reachability and
    distance ordering are computed on squared distances (the bridge to
    genuine Euclidean distance is proved where a claim mentions it);
  * numpy argsort over a distance vector is modelled as an insertion sort
    of indices/records by distance (the source does not fix tie order);
  * parallel numpy arrays (id / x / y / fiber, id / n_observed) are
    modelled as lists of per-entity records;
  * the fatal ValueError of update_global_targets is modelled as
    Except.error carrying the offending target id.
-/

/-- Squared planar distance between two points of the focal plane.  The
source computes np.sqrt((x1-x2)**2 + (y1-y2)**2) and only ever compares or
sorts these values, which squaring preserves. -/
def dist2 (x1 y1 x2 y2 : ℚ) : ℚ := (x1 - x2) ^ 2 + (y1 - y2) ^ 2

/-- R1, distance from central axis to eccentric axis in mm
(util/__init__.py, Positioner.__init__: self.R1 = 3.000). -/
def R1 : ℚ := 3

/-- R2, distance from eccentric axis to ferrule axis in mm
(util/__init__.py, Positioner.__init__: self.R2 = 3.000). -/
def R2 : ℚ := 3

/-- patrol_radius = Fibers.positioner.R1 + Fibers.positioner.R2
(fiberassign/assign.py line 20). -/
def patrol_radius : ℚ := R1 + R2

/-- One target of a TargetTile (util/__init__.py, class TargetTile):
unique id, focal-plane position x,y in mm, and assignment state fiber
(initialised to the sentinel -1 by TargetTile.__init__). -/
structure Target where
  tid : Int
  x : ℚ
  y : ℚ
  fiber : Int
deriving DecidableEq, Repr

instance : Inhabited Target := ⟨⟨0, 0, 0, -1⟩⟩

/-- One fiber of a FocalPlaneFibers object together with its mutable
assignment state.  x,y are the focal-plane position (x_focal, y_focal).
Modelled from the spec: the fields written by the setters missing from
src (Fibers.set_available / reset_available / set_target) are the
candidate list avail (the available_targets entry; n_targets is its
length) and target, the assigned target id, sentinel none. -/
structure Fiber where
  x : ℚ
  y : ℚ
  avail : List Int
  target : Option Int
deriving DecidableEq, Repr

instance : Inhabited Fiber := ⟨⟨0, 0, [], none⟩⟩

/-- Squared distance from a fiber to a target
(assign.py line 22: distance = np.sqrt((TargetsTile.x - x_pos)**2 + (TargetsTile.y - y_pos)**2)). -/
def fiberTargetDist2 (f : Fiber) (t : Target) : ℚ := dist2 t.x t.y f.x f.y

/-- Candidate list of one fiber (assign.py lines 22-32): keep the targets
with distance strictly below patrol_radius (squared comparison, see
above), sort them ascending by distance (the argsort of line 29), and
record their ids.  The n_reachable = 0 branch (reset_available) produces
the empty list, which is the value of this expression on an empty filter. -/
def candidatesFor (targets : List Target) (f : Fiber) : List Int :=
  ((targets.filter fun t => fiberTargetDist2 f t < patrol_radius ^ 2).insertionSort
      (fun a b => fiberTargetDist2 f a ≤ fiberTargetDist2 f b)).map Target.tid

/-- find_available_targets (assign.py lines 16-33): store, for every
fiber, the sorted candidate list computed against the target pool. -/
def find_available_targets (fibers : List Fiber) (targets : List Target) : List Fiber :=
  fibers.map fun f => { f with avail := candidatesFor targets f }

/-- Modelled from the spec: TargetsTile.set_fiber (missing from src),
called as TargetsTile.set_fiber(target, i) with a target id; it records
the claiming fiber id on the target with that id
(spec 4.4: set target.fiber_id = fiber.id). -/
def set_fiber (targets : List Target) (tid : Int) (i : Int) : List Target :=
  targets.map fun t => if t.tid = tid then { t with fiber := i } else t

/-- Body of the select_target loop (assign.py lines 58-63), processing
fibers in ascending id order, i being the id of the first fiber of the
list.  If the candidate list is non-empty the fiber takes its FIRST entry
unconditionally: target = target_array[0]; Fibers.set_target(i, target);
TargetsTile.set_fiber(target, i).  There is no re-check of the target's
current fiber state and no fall-through to later entries. -/
def selectFrom : Int → List Fiber → List Target → List Fiber × List Target
  | _, [], targets => ([], targets)
  | i, f :: rest, targets =>
    match f.avail with
    | [] =>
      let r := selectFrom (i + 1) rest targets
      (f :: r.1, r.2)
    | tid :: _ =>
      let r := selectFrom (i + 1) rest (set_fiber targets tid i)
      ({ f with target := some tid } :: r.1, r.2)

/-- select_target (assign.py lines 36-64): one batch pass over all fibers
starting at fiber id 0. -/
def select_target (fibers : List Fiber) (targets : List Target) : List Fiber × List Target :=
  selectFrom 0 fibers targets

/-- Scenario B of the spec: fibers F0 = (0,0) and F1 = (4,0). -/
def fibersB : List Fiber := [⟨0, 0, [], none⟩, ⟨4, 0, [], none⟩]

/-- Scenario B of the spec: the single target T0 with id 0 at (2,0),
unassigned. -/
def targetsB : List Target := [⟨0, 2, 0, -1⟩]

/-- Result of the full batch pass on Scenario B. -/
def passB : List Fiber × List Target :=
  select_target (find_available_targets fibersB targetsB) targetsB

/-- plate_dist (util/__init__.py lines 16-33): Horner loop
radius = theta*radius + p[i] over p = [8.297E5, -1750.0, 1.394E4, 0.0],
starting from radius = 0; the coefficient values are the exact integers
829700, -1750, 13940, 0.  Stated over any commutative ring so that the
same definition serves the exact-real projection model. -/
def plate_dist {R : Type} [CommRing R] (theta : R) : R :=
  [(829700 : R), -1750, 13940, 0].foldl (fun radius p => theta * radius + p) 0

/-- Unit vector on the sphere for equatorial coordinates in degrees
(util/__init__.py lines 51-55 and 57-61): colatitude (90 - dec)*pi/180,
azimuth ra*pi/180, components (sin th * cos ph, sin th * sin ph, cos th). -/
noncomputable def unitSphereVec (ra dec : ℝ) : ℝ × ℝ × ℝ :=
  (Real.sin ((90 - dec) * Real.pi / 180) * Real.cos (ra * Real.pi / 180),
   Real.sin ((90 - dec) * Real.pi / 180) * Real.sin (ra * Real.pi / 180),
   Real.cos ((90 - dec) * Real.pi / 180))

/-- radec2xy (util/__init__.py lines 35-90) in exact real arithmetic.
The two rotations, the epsilon-padded sintheta (line 70:
sqrt(1 - costheta^2) + 1E-10) and the final radial projection follow the
source line by line.  The final step x = radius*nn_hat0/theta,
y = radius*nn_hat1/theta divides by theta; in numpy a zero theta makes
this 0/0, a propagating invalid-division (nan), which the embedding
renders as none: the result is some (x, y) exactly when theta is not 0. -/
noncomputable def radec2xy (object_ra object_dec tile_ra tile_dec : ℝ) : Option (ℝ × ℝ) :=
  let o := unitSphereVec object_ra object_dec
  let t := unitSphereVec tile_ra tile_dec
  let costheta := t.2.2
  let sintheta := Real.sqrt (1 - costheta * costheta) + 1e-10
  let cosphi := t.1 / sintheta
  let sinphi := t.2.1 / sintheta
  let n0 := sinphi * o.1 - cosphi * o.2.1
  let n1 := cosphi * o.1 + sinphi * o.2.1
  let n2 := o.2.2
  let nn0 := n0
  let nn1 := costheta * n1 - sintheta * n2
  let theta := Real.sqrt (nn0 * nn0 + nn1 * nn1)
  if theta = 0 then none
  else some (plate_dist theta * nn0 / theta, plate_dist theta * nn1 / theta)

/-- One entry of the survey-wide target list.  The TargetSurvey class is
not under src; recordresults/update.py reads exactly the fields
all_targets.id and all_targets.n_observed, which the entry records. -/
structure SurveyEntry where
  tid : Int
  nObserved : Nat
deriving DecidableEq, Repr

instance : Inhabited SurveyEntry := ⟨⟨0, 0⟩⟩

/-- Increment of update.py line 65:
all_targets.n_observed[loc] = all_targets.n_observed[loc] + 1 at every
position loc whose id matches (loc = np.where(all_targets.id == tid)). -/
def bumpObserved (survey : List SurveyEntry) (tid : Int) : List SurveyEntry :=
  survey.map fun e => if e.tid = tid then { e with nObserved := e.nObserved + 1 } else e

/-- update_global_targets (recordresults/update.py lines 50-69): loop over
the tile targets; a target assigned to a fiber (fiber state not -1) must
appear in the survey list, and then every survey entry with its id gets
its counter incremented; a missing id raises ValueError — modelled as
Except.error carrying the offending id — aborting the loop.  Unassigned
targets are skipped entirely. -/
def update_global_targets (survey : List SurveyEntry) (tile : List Target) :
    Except Int (List SurveyEntry) :=
  match tile with
  | [] => Except.ok survey
  | t :: rest =>
    if t.fiber = -1 then update_global_targets survey rest
    else if survey.any fun e => e.tid = t.tid then
      update_global_targets (bumpObserved survey t.tid) rest
    else Except.error t.tid

/-- Projection of a fiber onto the data the assignment pass reads:
focal-plane position and initial assignment state.  The avail scratch
field is overwritten by find_available_targets before being read. -/
def fiberCore (f : Fiber) : ℚ × ℚ × Option Int := (f.x, f.y, f.target)

/-- Genuine planar Euclidean distance between two focal-plane points,
the np.sqrt the source computes; used to state claims about distances. -/
noncomputable def planarDist (x1 y1 x2 y2 : ℚ) : ℝ :=
  Real.sqrt ((((x1 : ℝ) - x2)) ^ 2 + (((y1 : ℝ) - y2)) ^ 2)

/-- Squared distance between the fibers at positions a and b of a focal
plane layout (util/__init__.py line 124: radius = sqrt((x_focal - x)^2 +
(y_focal - y)^2), squared as everywhere in this embedding). -/
def nbrKey (pts : List (ℚ × ℚ)) (i j : Nat) : ℚ :=
  dist2 (pts.getD j (0, 0)).1 (pts.getD j (0, 0)).2 (pts.getD i (0, 0)).1 (pts.getD i (0, 0)).2

/-- Neighbor list of fiber i (util/__init__.py lines 121-126): sort all
fiber indices by distance from fiber i (ids = radius.argsort(), modelled
as a stable insertion sort; position 0 holds fiber i itself as the unique
zero of the distance vector when positions are distinct) and keep
positions 1 to 6 (ids[1:7]). -/
def neighborsOf (pts : List (ℚ × ℚ)) (i : Nat) : List Nat :=
  (((List.range pts.length).insertionSort
      (fun a b => nbrKey pts i a ≤ nbrKey pts i b)).drop 1).take 6

/-- Effect of one select_target loop iteration on the processed fiber
itself: with a non-empty candidate list the fiber records the first
entry, otherwise it is left untouched. -/
def claimFiber (f : Fiber) : Fiber :=
  match f.avail with
  | [] => f
  | tid :: _ => { f with target := some tid }

/-- C7: plate_dist(theta) is the Horner evaluation
((8.297e5*theta - 1750)*theta + 1.394e4)*theta + 0 for every real theta,
and in particular plate_dist 0 = 0. -/
theorem plate_dist_horner (theta : ℝ) :
    plate_dist theta = ((829700 * theta - 1750) * theta + 13940) * theta + 0 ∧
      plate_dist (0 : ℝ) = 0 := by
  constructor
  · simp [plate_dist]
    ring
  · simp [plate_dist]

/-- C1: refuted on the code.  select_target performs no re-check before
committing: on Scenario B (F0 = (0,0), F1 = (4,0), patrol radius 6,
T0 = (2,0) reachable by both) fiber F1 is NOT left unassigned — it also
records target 0, and T0 ends with fiber_id 1, not 0. -/
theorem select_target_no_recheck_scenarioB :
    (passB.1.map Fiber.target = [some 0, some 0]) ∧
      passB.2.map Target.fiber = [1] := by
  norm_num [passB, select_target, selectFrom, find_available_targets, candidatesFor,
    fiberTargetDist2, dist2, patrol_radius, R1, R2, set_fiber, fibersB, targetsB,
    List.filter]

/-- C2: refuted on the code.  After the Scenario B pass, exclusivity
fails: the two distinct fibers both hold the same assigned target id, so
the fiber list is not pairwise distinct on assigned targets. -/
theorem select_target_exclusivity_violated :
    ¬ passB.1.Pairwise
        (fun f g => f.target = none ∨ g.target = none ∨ f.target ≠ g.target) := by
  norm_num [passB, select_target, selectFrom, find_available_targets, candidatesFor,
    fiberTargetDist2, dist2, patrol_radius, R1, R2, set_fiber, fibersB, targetsB,
    List.filter, List.Pairwise]
  exact Option.some_ne_none 0

/-- C3: refuted on the code.  After the Scenario B pass, pairing symmetry
fails in the fiber-to-target direction: fiber 0 has target_id 0, but the
(unique) target with id 0 has fiber_id 1, not 0. -/
theorem select_target_pairing_symmetry_violated :
    (passB.1.getD 0 default).target = some 0 ∧
      ∀ t ∈ passB.2, t.tid = 0 → t.fiber = 1 := by
  norm_num [passB, select_target, selectFrom, find_available_targets, candidatesFor,
    fiberTargetDist2, dist2, patrol_radius, R1, R2, set_fiber, fibersB, targetsB,
    List.filter]

/-- C5: refuted on the code.  radec2xy has no special case for a target at
the tile center: with the tile centered at (ra, dec) = (0, 0) and the
target at exactly that position, the rotated vector's planar components
vanish exactly, theta = 0, and the final step evaluates the 0/0 division
(nan in the numpy source, none in the embedding) instead of returning
the pair (0, 0). -/
theorem radec2xy_center_division_failure : radec2xy 0 0 0 0 = none := by
  have h90 : (90 : ℝ) * Real.pi / 180 = Real.pi / 2 := by ring
  have hv : unitSphereVec 0 0 = (1, 0, 0) := by
    simp [unitSphereVec, h90, Real.sin_pi_div_two, Real.cos_pi_div_two]
  unfold radec2xy
  rw [hv]
  norm_num [Real.sqrt_one, Real.sqrt_zero]

/-- bumpObserved changes no target id. -/
theorem bumpObserved_map_tid (survey : List SurveyEntry) (tid0 : Int) :
    (bumpObserved survey tid0).map SurveyEntry.tid = survey.map SurveyEntry.tid := by
  induction survey with
  | nil => rfl
  | cons e rest ih =>
    by_cases h : e.tid = tid0 <;> simp [bumpObserved, h] at ih ⊢ <;> exact ih

/-- Ids absent from the survey list stay absent after a bump. -/
theorem forall_bumpObserved_tid (survey : List SurveyEntry) (tid0 v : Int) :
    (∀ s ∈ bumpObserved survey tid0, s.tid ≠ v) ↔ ∀ s ∈ survey, s.tid ≠ v := by
  have hmap := bumpObserved_map_tid survey tid0
  constructor
  · intro h s hs
    have : s.tid ∈ (bumpObserved survey tid0).map SurveyEntry.tid := by
      rw [hmap]
      exact List.mem_map_of_mem _ hs
    rcases List.mem_map.mp this with ⟨s2, hs2, heq⟩
    rw [← heq]
    exact h s2 hs2
  · intro h s hs
    have : s.tid ∈ survey.map SurveyEntry.tid := by
      rw [← hmap]
      exact List.mem_map_of_mem _ hs
    rcases List.mem_map.mp this with ⟨s2, hs2, heq⟩
    rw [← heq]
    exact h s2 hs2

/-- C6: update_global_targets fails — the fatal, loop-aborting ValueError
of the source, never retried — exactly when some tile target assigned to
a fiber carries an id absent from the survey-wide list; unassigned
targets and found ids never produce an error. -/
theorem update_global_targets_error_iff (survey : List SurveyEntry) (tile : List Target) :
    (∃ e, update_global_targets survey tile = Except.error e) ↔
      ∃ t ∈ tile, t.fiber ≠ -1 ∧ ∀ s ∈ survey, s.tid ≠ t.tid := by
  induction tile generalizing survey with
  | nil => simp [update_global_targets]
  | cons t rest ih =>
    by_cases hf : t.fiber = -1
    · rw [show update_global_targets survey (t :: rest) = update_global_targets survey rest
        from by simp [update_global_targets, hf]]
      rw [ih]
      simp [hf]
    · by_cases hfound : ∃ s ∈ survey, s.tid = t.tid
      · have hany : (survey.any fun e => e.tid = t.tid) = true := by
          simpa [List.any_eq_true] using hfound
        rw [show update_global_targets survey (t :: rest)
              = update_global_targets (bumpObserved survey t.tid) rest
            from by simp [update_global_targets, hf, hany]]
        rw [ih]
        have hPt : ¬(t.fiber ≠ -1 ∧ ∀ s ∈ survey, s.tid ≠ t.tid) := by
          rintro ⟨-, hall⟩
          rcases hfound with ⟨s, hs, heq⟩
          exact hall s hs heq
        simp only [List.mem_cons]
        constructor
        · rintro ⟨t2, ht2, hne, hall⟩
          exact ⟨t2, Or.inr ht2, hne, (forall_bumpObserved_tid survey t.tid t2.tid).mp hall⟩
        · rintro ⟨t2, ht2, hne, hall⟩
          rcases ht2 with rfl | ht2
          · exact absurd ⟨hne, hall⟩ hPt
          · exact ⟨t2, ht2, hne, (forall_bumpObserved_tid survey t.tid t2.tid).mpr hall⟩
      · have hany : (survey.any fun e => e.tid = t.tid) = false := by
          simp only [List.any_eq_false]
          intro s hs
          simpa using fun heq => hfound ⟨s, hs, heq⟩
        constructor
        · intro _
          refine ⟨t, List.mem_cons_self t rest, hf, ?_⟩
          intro s hs heq
          exact hfound ⟨s, hs, heq⟩
        · intro _
          refine ⟨t.tid, ?_⟩
          simp [update_global_targets, hf, hany]

/-- Pointwise view of bumpObserved: the entry at position j keeps its id
and gains 1 on its counter exactly when its id matches. -/
theorem bumpObserved_getD (survey : List SurveyEntry) (tid0 : Int) (j : Nat)
    (hj : j < survey.length) :
    (bumpObserved survey tid0).getD j default =
      (if (survey.getD j default).tid = tid0 then
        { survey.getD j default with nObserved := (survey.getD j default).nObserved + 1 }
      else survey.getD j default) := by
  induction survey generalizing j with
  | nil => exact absurd hj (by simp)
  | cons e rest ih =>
    cases j with
    | zero => simp [bumpObserved]
    | succ k =>
      have hk : k < rest.length := by simpa using hj
      simpa [bumpObserved] using ih k hk

/-- update_global_targets ignores the unassigned tile targets entirely:
running it on the assigned sub-list gives the same outcome. -/
theorem update_global_targets_filter (survey : List SurveyEntry) (tile : List Target) :
    update_global_targets survey tile =
      update_global_targets survey (tile.filter fun t => t.fiber ≠ -1) := by
  induction tile generalizing survey with
  | nil => rfl
  | cons t rest ih =>
    by_cases hf : t.fiber = -1
    · simpa [update_global_targets, hf, List.filter_cons] using ih survey
    · by_cases hany : (survey.any fun e => e.tid = t.tid) = true
      · simpa [update_global_targets, hf, hany, List.filter_cons]
          using ih (bumpObserved survey t.tid)
      · simp [update_global_targets, hf, hany, List.filter_cons,
          Bool.not_eq_true _ ▸ hany]

/-- On success, update_global_targets leaves every field but the counters
unchanged: the id column of the survey list is preserved. -/
theorem update_global_targets_ok_map_tid (survey : List SurveyEntry) (tile : List Target)
    (res : List SurveyEntry)
    (hok : update_global_targets survey tile = Except.ok res) :
    res.map SurveyEntry.tid = survey.map SurveyEntry.tid := by
  induction tile generalizing survey with
  | nil =>
    simp only [update_global_targets, Except.ok.injEq] at hok
    rw [← hok]
  | cons t rest ih =>
    by_cases hf : t.fiber = -1
    · exact ih survey (by simpa [update_global_targets, hf] using hok)
    · by_cases hany : (survey.any fun e => e.tid = t.tid) = true
      · have h2 := ih (bumpObserved survey t.tid)
          (by simpa [update_global_targets, hf, hany] using hok)
        rw [h2, bumpObserved_map_tid]
      · simp [update_global_targets, hf, hany] at hok

/-- On success, each survey counter grows by exactly the number (0 or 1,
given the per-tile uniqueness of assigned ids) of assigned tile targets
carrying its id. -/
theorem update_global_targets_counters (survey : List SurveyEntry) (tile : List Target)
    (res : List SurveyEntry)
    (hok : update_global_targets survey tile = Except.ok res)
    (hnodup : ((tile.filter fun t => t.fiber ≠ -1).map Target.tid).Nodup)
    (j : Nat) (hj : j < survey.length) :
    (res.getD j default).nObserved =
      (survey.getD j default).nObserved +
        (if ∃ t ∈ tile, t.fiber ≠ -1 ∧ t.tid = (survey.getD j default).tid
         then 1 else 0) := by
  induction tile generalizing survey with
  | nil =>
    simp only [update_global_targets, Except.ok.injEq] at hok
    rw [← hok]
    simp
  | cons t rest ih =>
    by_cases hf : t.fiber = -1
    · have hok2 : update_global_targets survey rest = Except.ok res := by
        simpa [update_global_targets, hf] using hok
      have hnd2 : ((rest.filter fun t => t.fiber ≠ -1).map Target.tid).Nodup := by
        simpa [List.filter_cons, hf] using hnodup
      have h2 := ih survey hok2 hnd2 hj
      have hhead : ¬(t.fiber ≠ -1 ∧ t.tid = (survey.getD j default).tid) := by
        rintro ⟨hne, -⟩
        exact hne hf
      have hiff : (∃ t2 ∈ t :: rest, t2.fiber ≠ -1 ∧ t2.tid = (survey.getD j default).tid)
          ↔ ∃ t2 ∈ rest, t2.fiber ≠ -1 ∧ t2.tid = (survey.getD j default).tid := by
        constructor
        · rintro ⟨t2, ht2, hne2, heq2⟩
          rcases List.mem_cons.mp ht2 with rfl | ht2
          · exact absurd ⟨hne2, heq2⟩ hhead
          · exact ⟨t2, ht2, hne2, heq2⟩
        · rintro ⟨t2, ht2, hne2, heq2⟩
          exact ⟨t2, List.mem_cons_of_mem t ht2, hne2, heq2⟩
      rw [h2]
      simp only [hiff]
    · by_cases hany : (survey.any fun e => e.tid = t.tid) = true
      · have hok2 : update_global_targets (bumpObserved survey t.tid) rest = Except.ok res := by
          simpa [update_global_targets, hf, hany] using hok
        have hnd2 : ((rest.filter fun t2 => t2.fiber ≠ -1).map Target.tid).Nodup := by
          have : ((t :: rest).filter fun t2 => t2.fiber ≠ -1)
              = t :: (rest.filter fun t2 => t2.fiber ≠ -1) := by
            simp [List.filter_cons, hf]
          rw [this] at hnodup
          exact (List.nodup_cons.mp hnodup).2
        have hnotin : t.tid ∉ (rest.filter fun t2 => t2.fiber ≠ -1).map Target.tid := by
          have : ((t :: rest).filter fun t2 => t2.fiber ≠ -1)
              = t :: (rest.filter fun t2 => t2.fiber ≠ -1) := by
            simp [List.filter_cons, hf]
          rw [this] at hnodup
          exact (List.nodup_cons.mp hnodup).1
        have hjb : j < (bumpObserved survey t.tid).length := by
          simpa [bumpObserved] using hj
        have h2 := ih (bumpObserved survey t.tid) hok2 hnd2 hjb
        rw [h2, bumpObserved_getD survey t.tid j hj]
        by_cases hmatch : (survey.getD j default).tid = t.tid
        · have hnorest : ¬∃ t2 ∈ rest, t2.fiber ≠ -1 ∧ t2.tid = (survey.getD j default).tid := by
            rintro ⟨t2, ht2, hne2, heq2⟩
            apply hnotin
            rw [← hmatch, ← heq2]
            exact List.mem_map_of_mem _ (List.mem_filter.mpr ⟨ht2, by simpa using hne2⟩)
          have hyes : ∃ t2 ∈ t :: rest, t2.fiber ≠ -1 ∧ t2.tid = (survey.getD j default).tid :=
            ⟨t, List.mem_cons_self t rest, hf, hmatch.symm⟩
          rw [if_pos hmatch]
          simp only [show ({ survey.getD j default with
                nObserved := (survey.getD j default).nObserved + 1 } : SurveyEntry).tid
              = (survey.getD j default).tid from rfl,
            show ({ survey.getD j default with
                nObserved := (survey.getD j default).nObserved + 1 } : SurveyEntry).nObserved
              = (survey.getD j default).nObserved + 1 from rfl]
          rw [if_neg hnorest, if_pos hyes]
        · have hiff : (∃ t2 ∈ t :: rest, t2.fiber ≠ -1 ∧ t2.tid = (survey.getD j default).tid)
              ↔ ∃ t2 ∈ rest, t2.fiber ≠ -1 ∧ t2.tid = (survey.getD j default).tid := by
            constructor
            · rintro ⟨t2, ht2, hne2, heq2⟩
              rcases List.mem_cons.mp ht2 with rfl | ht2
              · exact absurd heq2.symm hmatch
              · exact ⟨t2, ht2, hne2, heq2⟩
            · rintro ⟨t2, ht2, hne2, heq2⟩
              exact ⟨t2, List.mem_cons_of_mem t ht2, hne2, heq2⟩
          rw [if_neg hmatch]
          rw [if_congr hiff rfl rfl]
      · simp [update_global_targets, hf, hany] at hok

/-- C10: frame effect of update_global_targets.  Unassigned tile targets
are ignored entirely: filtering them away changes nothing, so an
unassigned target never touches a counter and never raises, even with an
id absent from the survey list.  On success the id column is unchanged,
and each survey entry's counter grows by exactly 1 when some assigned
tile target carries its id and by 0 otherwise (the assigned ids of a
tile being pairwise distinct). -/
theorem update_global_targets_frame_effect (survey : List SurveyEntry) (tile : List Target)
    (hnodup : ((tile.filter fun t => t.fiber ≠ -1).map Target.tid).Nodup) :
    update_global_targets survey tile =
        update_global_targets survey (tile.filter fun t => t.fiber ≠ -1) ∧
      ∀ res, update_global_targets survey tile = Except.ok res →
        res.map SurveyEntry.tid = survey.map SurveyEntry.tid ∧
        ∀ j, j < survey.length →
          (res.getD j default).nObserved =
            (survey.getD j default).nObserved +
              (if ∃ t ∈ tile, t.fiber ≠ -1 ∧ t.tid = (survey.getD j default).tid
               then 1 else 0) :=
  ⟨update_global_targets_filter survey tile,
    fun res hok => ⟨update_global_targets_ok_map_tid survey tile res hok,
      fun j hj => update_global_targets_counters survey tile res hok hnodup j hj⟩⟩

/-- Witness for C10: a two-entry survey, one assigned matching tile
target and one unassigned tile target whose id is absent. -/
theorem update_global_targets_frame_effect_witness :
    update_global_targets [⟨5, 2⟩, ⟨9, 0⟩] [⟨5, 0, 0, 1⟩, ⟨7, 1, 1, -1⟩] =
        update_global_targets [⟨5, 2⟩, ⟨9, 0⟩]
          (([⟨5, 0, 0, 1⟩, ⟨7, 1, 1, -1⟩] : List Target).filter fun t => t.fiber ≠ -1) ∧
      ∀ res, update_global_targets [⟨5, 2⟩, ⟨9, 0⟩] [⟨5, 0, 0, 1⟩, ⟨7, 1, 1, -1⟩] =
          Except.ok res →
        res.map SurveyEntry.tid = ([⟨5, 2⟩, ⟨9, 0⟩] : List SurveyEntry).map SurveyEntry.tid ∧
        ∀ j, j < ([⟨5, 2⟩, ⟨9, 0⟩] : List SurveyEntry).length →
          (res.getD j default).nObserved =
            (([⟨5, 2⟩, ⟨9, 0⟩] : List SurveyEntry).getD j default).nObserved +
              (if ∃ t ∈ ([⟨5, 0, 0, 1⟩, ⟨7, 1, 1, -1⟩] : List Target), t.fiber ≠ -1 ∧
                  t.tid = (([⟨5, 2⟩, ⟨9, 0⟩] : List SurveyEntry).getD j default).tid
               then 1 else 0) :=
  update_global_targets_frame_effect [⟨5, 2⟩, ⟨9, 0⟩] [⟨5, 0, 0, 1⟩, ⟨7, 1, 1, -1⟩] (by decide)

/-- C9: determinism of the batch pass as a function of its published
inputs: two fiber lists that agree on positions and initial assignment
state (their candidate-list scratch fields may differ arbitrarily)
produce, against the same target pool and in the same ascending
processing order, identical candidate lists and an identical final
fiber/target assignment. -/
theorem assignment_pass_deterministic (fibers1 fibers2 : List Fiber) (targets : List Target)
    (h : fibers1.map fiberCore = fibers2.map fiberCore) :
    find_available_targets fibers1 targets = find_available_targets fibers2 targets ∧
      select_target (find_available_targets fibers1 targets) targets
        = select_target (find_available_targets fibers2 targets) targets := by
  have hfa : find_available_targets fibers1 targets = find_available_targets fibers2 targets := by
    induction fibers1 generalizing fibers2 with
    | nil =>
      cases fibers2 with
      | nil => rfl
      | cons g gs => simp [fiberCore] at h
    | cons f fs ih =>
      cases fibers2 with
      | nil => simp [fiberCore] at h
      | cons g gs =>
        simp only [List.map_cons, List.cons.injEq] at h
        obtain ⟨hc, hrest⟩ := h
        have hfg : ({ f with avail := candidatesFor targets f } : Fiber)
            = { g with avail := candidatesFor targets g } := by
          cases f
          cases g
          simp only [fiberCore, Prod.mk.injEq] at hc
          obtain ⟨h1, h2, h3⟩ := hc
          subst h1
          subst h2
          subst h3
          simp [candidatesFor, fiberTargetDist2]
        have htail := ih gs hrest
        simp only [find_available_targets, List.map_cons] at htail ⊢
        rw [hfg]
        exact congrArg _ htail
  exact ⟨hfa, by rw [hfa]⟩

/-- Witness for C9: two one-fiber layouts with equal position and initial
state but different candidate-list scratch content. -/
theorem assignment_pass_deterministic_witness :
    find_available_targets [⟨0, 0, [3], none⟩] [⟨1, 1, 0, -1⟩]
        = find_available_targets [⟨0, 0, [], none⟩] [⟨1, 1, 0, -1⟩] ∧
      select_target (find_available_targets [⟨0, 0, [3], none⟩] [⟨1, 1, 0, -1⟩]) [⟨1, 1, 0, -1⟩]
        = select_target (find_available_targets [⟨0, 0, [], none⟩] [⟨1, 1, 0, -1⟩])
            [⟨1, 1, 0, -1⟩] :=
  assignment_pass_deterministic [⟨0, 0, [3], none⟩] [⟨0, 0, [], none⟩] [⟨1, 1, 0, -1⟩] rfl

/-- A squared distance is nonnegative. -/
theorem dist2_nonneg (x1 y1 x2 y2 : ℚ) : 0 ≤ dist2 x1 y1 x2 y2 := by
  unfold dist2
  positivity

/-- Cast of the squared rational distance to the reals. -/
theorem dist2_cast (x1 y1 x2 y2 : ℚ) :
    ((dist2 x1 y1 x2 y2 : ℚ) : ℝ) = (((x1 : ℝ) - x2)) ^ 2 + (((y1 : ℝ) - y2)) ^ 2 := by
  unfold dist2
  push_cast
  ring

/-- Strict comparison of the Euclidean distance against a positive bound
is the squared comparison the embedding computes. -/
theorem planarDist_lt_iff (x1 y1 x2 y2 r : ℚ) (hr : 0 < r) :
    planarDist x1 y1 x2 y2 < (r : ℝ) ↔ dist2 x1 y1 x2 y2 < r ^ 2 := by
  unfold planarDist
  rw [← dist2_cast, Real.sqrt_lt' (by exact_mod_cast hr)]
  constructor <;> intro hh <;> exact_mod_cast hh

/-- Ordering two Euclidean distances is ordering the squared distances. -/
theorem planarDist_le_iff (x1 y1 x2 y2 x3 y3 x4 y4 : ℚ) :
    planarDist x1 y1 x2 y2 ≤ planarDist x3 y3 x4 y4 ↔
      dist2 x1 y1 x2 y2 ≤ dist2 x3 y3 x4 y4 := by
  unfold planarDist
  rw [← dist2_cast, ← dist2_cast,
    Real.sqrt_le_sqrt_iff (by exact_mod_cast dist2_nonneg x3 y3 x4 y4)]
  constructor <;> intro hh <;> exact_mod_cast hh

/-- A member of a candidate list is the id of a pool target strictly
within the (squared) patrol radius. -/
theorem candidatesFor_mem (targets : List Target) (f : Fiber) (tid : Int)
    (h : tid ∈ candidatesFor targets f) :
    ∃ t ∈ targets, t.tid = tid ∧ fiberTargetDist2 f t < patrol_radius ^ 2 := by
  unfold candidatesFor at h
  rcases List.mem_map.mp h with ⟨t, ht, rfl⟩
  rw [List.mem_insertionSort] at ht
  rcases List.mem_filter.mp ht with ⟨ht2, hp⟩
  exact ⟨t, ht2, rfl, by simpa using hp⟩

/-- The fiber side of the batch pass: each fiber with a non-empty list
claims its first candidate, every other fiber is returned unchanged. -/
theorem selectFrom_fst (i : Int) (fibers : List Fiber) (targets : List Target) :
    (selectFrom i fibers targets).1 = fibers.map claimFiber := by
  induction fibers generalizing i targets with
  | nil => rfl
  | cons f rest ih =>
    cases hf : f.avail with
    | nil => simp [selectFrom, hf, claimFiber, ih]
    | cons tid tl => simp [selectFrom, hf, claimFiber, ih]

/-- getD through a map, within bounds. -/
theorem getD_map_lt (g : Fiber → Fiber) (l : List Fiber) (i : Nat) (h : i < l.length) :
    (l.map g).getD i default = g (l.getD i default) := by
  induction l generalizing i with
  | nil => exact absurd h (by simp)
  | cons a as ih =>
    cases i with
    | zero => rfl
    | succ k => simpa using ih k (by simpa using h)

/-- C4: find_available_targets stores for fiber i exactly the ids of the
pool targets strictly within the patrol radius R1 + R2 = 6 (genuine
planar Euclidean distance), ordered ascending by that distance, and
consequently every target a fiber ends up assigned to after the batch
pass (on a freshly initialised fiber list) lies strictly within 6 mm of
that fiber. -/
theorem find_available_targets_characterization
    (fibers : List Fiber) (targets : List Target) (i : Nat)
    (h : i < fibers.length)
    (hinit : ∀ f ∈ fibers, f.target = none) :
    (∃ l : List Target,
      ((find_available_targets fibers targets).getD i default).avail = l.map Target.tid ∧
      l.Perm (targets.filter fun t =>
        fiberTargetDist2 (fibers.getD i default) t < patrol_radius ^ 2) ∧
      (∀ t ∈ targets,
        fiberTargetDist2 (fibers.getD i default) t < patrol_radius ^ 2 ↔
          planarDist t.x t.y (fibers.getD i default).x (fibers.getD i default).y < 6) ∧
      l.Sorted (fun a b =>
        planarDist a.x a.y (fibers.getD i default).x (fibers.getD i default).y ≤
          planarDist b.x b.y (fibers.getD i default).x (fibers.getD i default).y)) ∧
    ∀ g ∈ (select_target (find_available_targets fibers targets) targets).1,
      ∀ tid, g.target = some tid →
        ∃ t ∈ targets, t.tid = tid ∧ planarDist t.x t.y g.x g.y < 6 := by
  have h6 : ((patrol_radius : ℚ) : ℝ) = 6 := by
    norm_num [patrol_radius, R1, R2]
  have hrpos : (0 : ℚ) < patrol_radius := by norm_num [patrol_radius, R1, R2]
  constructor
  · have hmap : (find_available_targets fibers targets).getD i default
        = { fibers.getD i default with
            avail := candidatesFor targets (fibers.getD i default) } := by
      unfold find_available_targets
      exact getD_map_lt _ fibers i h
    refine ⟨(targets.filter fun t =>
        fiberTargetDist2 (fibers.getD i default) t < patrol_radius ^ 2).insertionSort
        (fun a b => fiberTargetDist2 (fibers.getD i default) a
          ≤ fiberTargetDist2 (fibers.getD i default) b), ?_, ?_, ?_, ?_⟩
    · rw [hmap]
      rfl
    · exact List.perm_insertionSort _ _
    · intro t ht
      rw [← h6]
      exact (planarDist_lt_iff t.x t.y (fibers.getD i default).x (fibers.getD i default).y
        patrol_radius hrpos).symm
    · letI : IsTotal Target (fun a b => fiberTargetDist2 (fibers.getD i default) a
          ≤ fiberTargetDist2 (fibers.getD i default) b) := ⟨fun a b => le_total _ _⟩
      letI : IsTrans Target (fun a b => fiberTargetDist2 (fibers.getD i default) a
          ≤ fiberTargetDist2 (fibers.getD i default) b) :=
        ⟨fun a b c hab hbc => le_trans hab hbc⟩
      have hs := List.sorted_insertionSort
        (fun a b => fiberTargetDist2 (fibers.getD i default) a
          ≤ fiberTargetDist2 (fibers.getD i default) b)
        (targets.filter fun t =>
          fiberTargetDist2 (fibers.getD i default) t < patrol_radius ^ 2)
      exact hs.imp fun hab => (planarDist_le_iff _ _ _ _ _ _ _ _).mpr hab
  · intro g hg tid hgt
    rw [select_target, selectFrom_fst] at hg
    rcases List.mem_map.mp hg with ⟨f1, hf1, rfl⟩
    unfold find_available_targets at hf1
    rcases List.mem_map.mp hf1 with ⟨f0, hf0, rfl⟩
    cases hav : candidatesFor targets f0 with
    | nil =>
      rw [hav] at hgt
      simp only [claimFiber] at hgt
      rw [hinit f0 hf0] at hgt
      exact Option.noConfusion hgt
    | cons c cs =>
      rw [hav] at hgt
      simp only [claimFiber] at hgt ⊢
      have hc : c = tid := by simpa using hgt
      have hcmem : c ∈ candidatesFor targets f0 := by
        rw [hav]
        exact List.mem_cons_self c cs
      rcases candidatesFor_mem targets f0 c hcmem with ⟨t, ht, htid, hdist⟩
      refine ⟨t, ht, htid.trans hc, ?_⟩
      rw [← h6]
      exact (planarDist_lt_iff t.x t.y f0.x f0.y patrol_radius hrpos).mpr hdist

/-- Witness for C4: one fiber at the origin and one reachable target. -/
theorem find_available_targets_characterization_witness :
    (∃ l : List Target,
      ((find_available_targets [⟨0, 0, [], none⟩] [⟨7, 1, 0, -1⟩]).getD 0 default).avail
          = l.map Target.tid ∧
      l.Perm (([⟨7, 1, 0, -1⟩] : List Target).filter fun t =>
        fiberTargetDist2 (([⟨0, 0, [], none⟩] : List Fiber).getD 0 default) t
          < patrol_radius ^ 2) ∧
      (∀ t ∈ ([⟨7, 1, 0, -1⟩] : List Target),
        fiberTargetDist2 (([⟨0, 0, [], none⟩] : List Fiber).getD 0 default) t
            < patrol_radius ^ 2 ↔
          planarDist t.x t.y (([⟨0, 0, [], none⟩] : List Fiber).getD 0 default).x
            (([⟨0, 0, [], none⟩] : List Fiber).getD 0 default).y < 6) ∧
      l.Sorted (fun a b =>
        planarDist a.x a.y (([⟨0, 0, [], none⟩] : List Fiber).getD 0 default).x
            (([⟨0, 0, [], none⟩] : List Fiber).getD 0 default).y ≤
          planarDist b.x b.y (([⟨0, 0, [], none⟩] : List Fiber).getD 0 default).x
            (([⟨0, 0, [], none⟩] : List Fiber).getD 0 default).y)) ∧
    ∀ g ∈ (select_target (find_available_targets [⟨0, 0, [], none⟩] [⟨7, 1, 0, -1⟩])
        [⟨7, 1, 0, -1⟩]).1,
      ∀ tid, g.target = some tid →
        ∃ t ∈ ([⟨7, 1, 0, -1⟩] : List Target), t.tid = tid ∧
          planarDist t.x t.y g.x g.y < 6 :=
  find_available_targets_characterization [⟨0, 0, [], none⟩] [⟨7, 1, 0, -1⟩] 0
    (by decide) (by decide)

/-- With pairwise-distinct positions, the squared distance from fiber i
vanishes exactly at fiber i itself. -/
theorem nbrKey_eq_zero_iff (pts : List (ℚ × ℚ)) (hnd : pts.Nodup) (i j : Nat)
    (hi : i < pts.length) (hj : j < pts.length) :
    nbrKey pts i j = 0 ↔ j = i := by
  constructor
  · intro h0
    have hx : ((pts.getD j (0, 0)).1 - (pts.getD i (0, 0)).1) ^ 2 = 0 := by
      unfold nbrKey dist2 at h0
      nlinarith [sq_nonneg ((pts.getD j (0, 0)).2 - (pts.getD i (0, 0)).2),
        sq_nonneg ((pts.getD j (0, 0)).1 - (pts.getD i (0, 0)).1)]
    have hy : ((pts.getD j (0, 0)).2 - (pts.getD i (0, 0)).2) ^ 2 = 0 := by
      unfold nbrKey dist2 at h0
      nlinarith [sq_nonneg ((pts.getD j (0, 0)).2 - (pts.getD i (0, 0)).2),
        sq_nonneg ((pts.getD j (0, 0)).1 - (pts.getD i (0, 0)).1)]
    have hx2 : (pts.getD j (0, 0)).1 = (pts.getD i (0, 0)).1 :=
      sub_eq_zero.mp ((pow_eq_zero_iff (by norm_num : (2 : ℕ) ≠ 0)).mp hx)
    have hy2 : (pts.getD j (0, 0)).2 = (pts.getD i (0, 0)).2 :=
      sub_eq_zero.mp ((pow_eq_zero_iff (by norm_num : (2 : ℕ) ≠ 0)).mp hy)
    have hpt : pts.getD j (0, 0) = pts.getD i (0, 0) := Prod.ext_iff.mpr ⟨hx2, hy2⟩
    rw [List.getD_eq_getElem pts (0, 0) hj, List.getD_eq_getElem pts (0, 0) hi] at hpt
    exact hnd.getElem_inj_iff.mp hpt
  · rintro rfl
    simp [nbrKey, dist2]

/-- C8: in a layout of at least 7 fibers at pairwise-distinct positions,
the neighbor list of every fiber i has exactly 6 entries, excludes i,
consists of distinct valid fiber indices sorted ascending by Euclidean
distance from fiber i, and is nearest-complete: every other fiber outside
the list is at least as far from fiber i as each listed fiber. -/
theorem neighborsOf_spec (pts : List (ℚ × ℚ)) (i : Nat)
    (h7 : 7 ≤ pts.length) (hnd : pts.Nodup) (hi : i < pts.length) :
    (neighborsOf pts i).length = 6 ∧
    i ∉ neighborsOf pts i ∧
    (neighborsOf pts i).Nodup ∧
    (∀ k ∈ neighborsOf pts i, k < pts.length) ∧
    (neighborsOf pts i).Sorted (fun a b =>
      planarDist (pts.getD a (0, 0)).1 (pts.getD a (0, 0)).2
          (pts.getD i (0, 0)).1 (pts.getD i (0, 0)).2 ≤
        planarDist (pts.getD b (0, 0)).1 (pts.getD b (0, 0)).2
          (pts.getD i (0, 0)).1 (pts.getD i (0, 0)).2) ∧
    ∀ j, j < pts.length → j ≠ i → j ∉ neighborsOf pts i →
      ∀ k ∈ neighborsOf pts i,
        planarDist (pts.getD k (0, 0)).1 (pts.getD k (0, 0)).2
            (pts.getD i (0, 0)).1 (pts.getD i (0, 0)).2 ≤
          planarDist (pts.getD j (0, 0)).1 (pts.getD j (0, 0)).2
            (pts.getD i (0, 0)).1 (pts.getD i (0, 0)).2 := by
  letI : IsTotal Nat (fun a b => nbrKey pts i a ≤ nbrKey pts i b) :=
    ⟨fun a b => le_total _ _⟩
  letI : IsTrans Nat (fun a b => nbrKey pts i a ≤ nbrKey pts i b) :=
    ⟨fun a b c hab hbc => le_trans hab hbc⟩
  have hperm := List.perm_insertionSort (fun a b => nbrKey pts i a ≤ nbrKey pts i b)
    (List.range pts.length)
  have hsorted := List.sorted_insertionSort (fun a b => nbrKey pts i a ≤ nbrKey pts i b)
    (List.range pts.length)
  set sl := (List.range pts.length).insertionSort
    (fun a b => nbrKey pts i a ≤ nbrKey pts i b) with hsl
  have hlen : sl.length = pts.length := by
    rw [hperm.length_eq, List.length_range]
  have hnds : sl.Nodup := hperm.nodup_iff.mpr (List.nodup_range _)
  have hmem : ∀ k, k ∈ sl ↔ k < pts.length := by
    intro k
    rw [hperm.mem_iff, List.mem_range]
  cases hcase : sl with
  | nil =>
    rw [hcase] at hlen
    simp at hlen
    omega
  | cons h0 tl =>
  have hh0mem : h0 < pts.length := by
    refine (hmem h0).mp ?_
    rw [hcase]
    exact List.mem_cons_self _ _
  have hkey_i : nbrKey pts i i = 0 := by simp [nbrKey, dist2]
  have h0i : h0 = i := by
    by_contra hne
    have himem : i ∈ sl := (hmem i).mpr hi
    rw [hcase] at himem
    rcases List.mem_cons.mp himem with heq | hit
    · exact hne heq.symm
    · have hst := hsorted
      rw [hcase] at hst
      have hle : nbrKey pts i h0 ≤ nbrKey pts i i := (List.sorted_cons.mp hst).1 i hit
      rw [hkey_i] at hle
      have hz : nbrKey pts i h0 = 0 := le_antisymm hle (dist2_nonneg _ _ _ _)
      exact hne ((nbrKey_eq_zero_iff pts hnd i h0 hi hh0mem).mp hz)
  have hnb : neighborsOf pts i = tl.take 6 := by
    unfold neighborsOf
    rw [← hsl, hcase]
    rfl
  have hlentl : tl.length + 1 = pts.length := by
    rw [hcase] at hlen
    simpa using hlen
  have hndcons : h0 ∉ tl ∧ tl.Nodup := by
    rw [hcase] at hnds
    exact List.nodup_cons.mp hnds
  have hsortedtl : tl.Sorted (fun a b => nbrKey pts i a ≤ nbrKey pts i b) := by
    have hst := hsorted
    rw [hcase] at hst
    exact (List.sorted_cons.mp hst).2
  have hmemtl : ∀ k ∈ tl, k < pts.length := by
    intro k hk
    refine (hmem k).mp ?_
    rw [hcase]
    exact List.mem_cons_of_mem _ hk
  refine ⟨?_, ?_, ?_, ?_, ?_, ?_⟩
  · rw [hnb]
    simp only [List.length_take]
    omega
  · rw [hnb]
    intro hmem6
    exact hndcons.1 (h0i ▸ List.take_subset 6 tl hmem6)
  · rw [hnb]
    exact (List.take_sublist 6 tl).nodup hndcons.2
  · rw [hnb]
    intro k hk
    exact hmemtl k (List.take_subset 6 tl hk)
  · rw [hnb]
    have hp : (tl.take 6).Sorted (fun a b => nbrKey pts i a ≤ nbrKey pts i b) :=
      hsortedtl.sublist (List.take_sublist 6 tl)
    exact hp.imp fun hab => (planarDist_le_iff _ _ _ _ _ _ _ _).mpr hab
  · rw [hnb]
    intro j hj hji hjn k hk
    have hjtl : j ∈ tl := by
      have : j ∈ sl := (hmem j).mpr hj
      rw [hcase] at this
      rcases List.mem_cons.mp this with heq | htl
      · exact absurd (heq.trans h0i) hji
      · exact htl
    have hjdrop : j ∈ tl.drop 6 := by
      have := List.take_append_drop 6 tl
      rcases List.mem_append.mp (this ▸ hjtl) with h1 | h2
      · exact absurd h1 hjn
      · exact h2
    have hsp := hsortedtl
    rw [← List.take_append_drop 6 tl] at hsp
    have hrel := (List.pairwise_append.mp hsp).2.2 k hk j hjdrop
    exact (planarDist_le_iff _ _ _ _ _ _ _ _).mpr hrel

/-- Witness for C8: seven distinct collinear fiber positions, fiber 0. -/
theorem neighborsOf_spec_witness :
    (neighborsOf [((0 : ℚ), (0 : ℚ)), (1, 0), (2, 0), (3, 0), (4, 0), (5, 0), (6, 0)] 0).length
        = 6 ∧
    0 ∉ neighborsOf [((0 : ℚ), (0 : ℚ)), (1, 0), (2, 0), (3, 0), (4, 0), (5, 0), (6, 0)] 0 ∧
    (neighborsOf [((0 : ℚ), (0 : ℚ)), (1, 0), (2, 0), (3, 0), (4, 0), (5, 0), (6, 0)] 0).Nodup ∧
    (∀ k ∈ neighborsOf [((0 : ℚ), (0 : ℚ)), (1, 0), (2, 0), (3, 0), (4, 0), (5, 0), (6, 0)] 0,
      k < ([((0 : ℚ), (0 : ℚ)), (1, 0), (2, 0), (3, 0), (4, 0), (5, 0), (6, 0)] :
        List (ℚ × ℚ)).length) ∧
    (neighborsOf [((0 : ℚ), (0 : ℚ)), (1, 0), (2, 0), (3, 0), (4, 0), (5, 0), (6, 0)] 0).Sorted
      (fun a b =>
        planarDist (([((0 : ℚ), (0 : ℚ)), (1, 0), (2, 0), (3, 0), (4, 0), (5, 0), (6, 0)] :
              List (ℚ × ℚ)).getD a (0, 0)).1
            (([((0 : ℚ), (0 : ℚ)), (1, 0), (2, 0), (3, 0), (4, 0), (5, 0), (6, 0)] :
              List (ℚ × ℚ)).getD a (0, 0)).2
            (([((0 : ℚ), (0 : ℚ)), (1, 0), (2, 0), (3, 0), (4, 0), (5, 0), (6, 0)] :
              List (ℚ × ℚ)).getD 0 (0, 0)).1
            (([((0 : ℚ), (0 : ℚ)), (1, 0), (2, 0), (3, 0), (4, 0), (5, 0), (6, 0)] :
              List (ℚ × ℚ)).getD 0 (0, 0)).2 ≤
          planarDist (([((0 : ℚ), (0 : ℚ)), (1, 0), (2, 0), (3, 0), (4, 0), (5, 0), (6, 0)] :
              List (ℚ × ℚ)).getD b (0, 0)).1
            (([((0 : ℚ), (0 : ℚ)), (1, 0), (2, 0), (3, 0), (4, 0), (5, 0), (6, 0)] :
              List (ℚ × ℚ)).getD b (0, 0)).2
            (([((0 : ℚ), (0 : ℚ)), (1, 0), (2, 0), (3, 0), (4, 0), (5, 0), (6, 0)] :
              List (ℚ × ℚ)).getD 0 (0, 0)).1
            (([((0 : ℚ), (0 : ℚ)), (1, 0), (2, 0), (3, 0), (4, 0), (5, 0), (6, 0)] :
              List (ℚ × ℚ)).getD 0 (0, 0)).2) ∧
    ∀ j, j < ([((0 : ℚ), (0 : ℚ)), (1, 0), (2, 0), (3, 0), (4, 0), (5, 0), (6, 0)] :
        List (ℚ × ℚ)).length → j ≠ 0 →
      j ∉ neighborsOf [((0 : ℚ), (0 : ℚ)), (1, 0), (2, 0), (3, 0), (4, 0), (5, 0), (6, 0)] 0 →
      ∀ k ∈ neighborsOf [((0 : ℚ), (0 : ℚ)), (1, 0), (2, 0), (3, 0), (4, 0), (5, 0), (6, 0)] 0,
        planarDist (([((0 : ℚ), (0 : ℚ)), (1, 0), (2, 0), (3, 0), (4, 0), (5, 0), (6, 0)] :
              List (ℚ × ℚ)).getD k (0, 0)).1
            (([((0 : ℚ), (0 : ℚ)), (1, 0), (2, 0), (3, 0), (4, 0), (5, 0), (6, 0)] :
              List (ℚ × ℚ)).getD k (0, 0)).2
            (([((0 : ℚ), (0 : ℚ)), (1, 0), (2, 0), (3, 0), (4, 0), (5, 0), (6, 0)] :
              List (ℚ × ℚ)).getD 0 (0, 0)).1
            (([((0 : ℚ), (0 : ℚ)), (1, 0), (2, 0), (3, 0), (4, 0), (5, 0), (6, 0)] :
              List (ℚ × ℚ)).getD 0 (0, 0)).2 ≤
          planarDist (([((0 : ℚ), (0 : ℚ)), (1, 0), (2, 0), (3, 0), (4, 0), (5, 0), (6, 0)] :
              List (ℚ × ℚ)).getD j (0, 0)).1
            (([((0 : ℚ), (0 : ℚ)), (1, 0), (2, 0), (3, 0), (4, 0), (5, 0), (6, 0)] :
              List (ℚ × ℚ)).getD j (0, 0)).2
            (([((0 : ℚ), (0 : ℚ)), (1, 0), (2, 0), (3, 0), (4, 0), (5, 0), (6, 0)] :
              List (ℚ × ℚ)).getD 0 (0, 0)).1
            (([((0 : ℚ), (0 : ℚ)), (1, 0), (2, 0), (3, 0), (4, 0), (5, 0), (6, 0)] :
              List (ℚ × ℚ)).getD 0 (0, 0)).2 :=
  neighborsOf_spec [((0 : ℚ), (0 : ℚ)), (1, 0), (2, 0), (3, 0), (4, 0), (5, 0), (6, 0)] 0
    (by decide) (by norm_num [Prod.ext_iff]) (by decide)
